import Mathlib

/-!
Shallow embedding of `src/main.c` (led-matrix-timer): the interrupt-driven
countdown state machine, the per-pass renderer of the main loop, and the
bit-banged shift-register transmission, with theorems checking the
specification's claims against these definitions.

Machine bytes (`uint8_t`) are modelled as `Nat` with an explicit `% 256`
wherever the C code can overflow; the C bitwise complement of a byte,
`(uint8_t)~x`, is `255 - x % 256`.
-/

/-- The shared mutable globals of `main.c` together with the timer peripheral's
internal count: `volatile uint8_t state`, `volatile uint8_t enabled`
(0/1, modelled as `Bool`), and the counter register `TCNT1`
(only ever written to 0 by the code we model, so its width never matters). -/
structure Sys where
  state : Nat
  enabled : Bool
  tcnt1 : Nat
deriving DecidableEq

/-- `ISR(PCINT0_vect)` from `main.c` lines 56-69.  The pin-change handler
fires on both edges; `pressed` is the level read from `BUTTON_PIN_REG`.
On a press while `state == 255` it starts the timer and zeroes `TCNT1`;
on a press otherwise it stops the timer; on a release it does nothing. -/
def inputMonitor (pressed : Bool) (s : Sys) : Sys :=
  if pressed then
    if s.state = 255 then
      { state := 0, enabled := true, tcnt1 := 0 }
    else
      { state := 255, enabled := false, tcnt1 := s.tcnt1 }
  else s

/-- `ISR(TIMER1_COMPA_vect)` from `main.c` lines 72-84.  While enabled it
increments the 8-bit `state` (wrapping at 256) and clears `enabled` once
the new value exceeds 63. -/
def tick (s : Sys) : Sys :=
  if s.enabled then
    { state := (s.state + 1) % 256,
      enabled := if (s.state + 1) % 256 > 63 then false else s.enabled,
      tcnt1 := s.tcnt1 }
  else s

/-- The DisplayState invariant of the specification: `state == 255` implies
not running, and running implies `state` in `0..63`. -/
def StateInv (s : Sys) : Prop :=
  (s.state = 255 → s.enabled = false) ∧ (s.enabled = true → s.state ≤ 63)

instance (s : Sys) : Decidable (StateInv s) := by
  unfold StateInv; infer_instance

/-- States reachable from the startup state `state=255, enabled=0, TCNT1=0`
under any interleaving of the two interrupt handlers. -/
inductive Reachable : Sys → Prop
  | init : Reachable ⟨255, false, 0⟩
  | button (p : Bool) {s : Sys} : Reachable s → Reachable (inputMonitor p s)
  | timer {s : Sys} : Reachable s → Reachable (tick s)

theorem inv_inputMonitor : ∀ (p : Bool) (s : Sys), StateInv s → StateInv (inputMonitor p s) := by
  rintro p ⟨st, en, t⟩ ⟨h1, h2⟩
  cases p with
  | false => exact ⟨h1, h2⟩
  | true =>
    by_cases h255 : st = 255
    · simp only [inputMonitor, h255, ite_true, if_pos rfl]
      decide
    · simp only [inputMonitor, ite_true, if_pos rfl, if_neg h255]
      exact ⟨fun _ => rfl, fun hh => nomatch hh⟩

theorem inv_tick : ∀ s : Sys, StateInv s → StateInv (tick s) := by
  rintro ⟨st, en, t⟩ ⟨h1, h2⟩
  cases en with
  | false => exact ⟨h1, h2⟩
  | true =>
    have hle : st ≤ 63 := h2 rfl
    have hmod : (st + 1) % 256 = st + 1 := Nat.mod_eq_of_lt (by omega)
    simp only [tick, ite_true, if_pos rfl, hmod]
    refine ⟨fun hh => ?_, fun hh => ?_⟩
    · exfalso
      simp only at hh
      omega
    · simp only at hh ⊢
      split at hh
      · exact absurd hh (by simp)
      · omega

theorem inv_reachable : ∀ s : Sys, Reachable s → StateInv s := by
  intro s h
  induction h with
  | init => decide
  | button p _ ih => exact inv_inputMonitor p _ ih
  | timer _ ih => exact inv_tick _ ih

/-- Claim C1: on a press while `counter == 255` the handler sets
`(counter, running) = (0, true)` and zeroes `TCNT1`; on a press while
`counter != 255` it sets `(counter, running) = (255, false)` (leaving
`TCNT1` alone); on a release it changes nothing. -/
theorem pcint0_spec (pressed : Bool) (s : Sys) :
    (pressed = true → s.state = 255 → inputMonitor pressed s = ⟨0, true, 0⟩) ∧
    (pressed = true → s.state ≠ 255 → inputMonitor pressed s = ⟨255, false, s.tcnt1⟩) ∧
    (pressed = false → inputMonitor pressed s = s) := by
  refine ⟨fun hp h255 => ?_, fun hp h255 => ?_, fun hp => ?_⟩
  · simp [inputMonitor, hp, h255]
  · simp [inputMonitor, hp, h255]
  · simp [inputMonitor, hp]

theorem pcint0_spec_witness :
    inputMonitor true ⟨255, false, 9⟩ = ⟨0, true, 0⟩ ∧
    inputMonitor true ⟨64, false, 3⟩ = ⟨255, false, 3⟩ ∧
    inputMonitor false ⟨7, true, 5⟩ = ⟨7, true, 5⟩ :=
  ⟨(pcint0_spec true ⟨255, false, 9⟩).1 rfl rfl,
   (pcint0_spec true ⟨64, false, 3⟩).2.1 rfl (by decide),
   (pcint0_spec false ⟨7, true, 5⟩).2.2 rfl⟩

theorem tick_run_aux (t : Nat) : ∀ n, n ≤ 63 → tick^[n] ⟨0, true, t⟩ = ⟨n, true, t⟩ := by
  intro n
  induction n with
  | zero => intro _; rfl
  | succ m ih =>
    intro hm
    have hmod : (m + 1) % 256 = m + 1 := Nat.mod_eq_of_lt (by omega)
    rw [Function.iterate_succ_apply', ih (by omega)]
    simp only [tick, ite_true, if_pos rfl, hmod]
    rw [if_neg (by omega : ¬ m + 1 > 63)]

/-- Claim C2: a tick while not running changes nothing; a tick while running
(from an invariant state, `counter ≤ 63`) increments the counter by exactly
one and, precisely when the new value exceeds 63, clears `running` leaving the
counter at 64; from `(0, true)` exactly 64 ticks reach `(64, false)` and every
further tick leaves the state there. -/
theorem timer1_compa_spec :
    (∀ s : Sys, s.enabled = false → tick s = s) ∧
    (∀ s : Sys, s.enabled = true → s.state ≤ 63 →
      (tick s).state = s.state + 1 ∧ (tick s).tcnt1 = s.tcnt1 ∧
      (63 < (tick s).state → (tick s).enabled = false ∧ (tick s).state = 64) ∧
      ((tick s).state ≤ 63 → (tick s).enabled = true)) ∧
    (∀ t k : Nat, tick^[64 + k] ⟨0, true, t⟩ = ⟨64, false, t⟩) := by
  refine ⟨fun s hs => by simp [tick, hs], fun s hs hle => ?_, fun t k => ?_⟩
  · have hmod : (s.state + 1) % 256 = s.state + 1 := Nat.mod_eq_of_lt (by omega)
    refine ⟨by simp [tick, hs, hmod], by simp [tick, hs], fun h => ?_, fun h => ?_⟩
    · simp only [tick, hs, ite_true, hmod] at h ⊢
      exact ⟨by rw [if_pos h], by omega⟩
    · simp only [tick, hs, ite_true, hmod] at h ⊢
      rw [if_neg (by omega : ¬ s.state + 1 > 63)]
  · induction k with
    | zero =>
      have h63 : tick^[63] ⟨0, true, t⟩ = ⟨63, true, t⟩ := tick_run_aux t 63 (by omega)
      have h1 : (64 : Nat) + 0 = 63 + 1 := rfl
      rw [h1, Function.iterate_succ_apply', h63]
      simp [tick]
    | succ m ih =>
      have h1 : (64 : Nat) + (m + 1) = (64 + m) + 1 := rfl
      rw [h1, Function.iterate_succ_apply', ih]
      simp [tick]

theorem timer1_compa_spec_witness :
    tick ⟨10, false, 7⟩ = ⟨10, false, 7⟩ ∧
    (tick ⟨63, true, 0⟩).state = 63 + 1 ∧
    tick^[64 + 0] ⟨0, true, 5⟩ = ⟨64, false, 5⟩ :=
  ⟨timer1_compa_spec.1 ⟨10, false, 7⟩ rfl,
   (timer1_compa_spec.2.1 ⟨63, true, 0⟩ rfl (by decide)).1,
   timer1_compa_spec.2.2 5 0⟩

/-- Claim C3: the DisplayState invariant (`counter == 255 → ¬running` and
`running → counter ≤ 63`) holds at startup, is preserved by both handlers,
and hence holds in every reachable state. -/
theorem display_state_invariant :
    StateInv ⟨255, false, 0⟩ ∧
    (∀ (p : Bool) (s : Sys), StateInv s → StateInv (inputMonitor p s)) ∧
    (∀ s : Sys, StateInv s → StateInv (tick s)) ∧
    (∀ s : Sys, Reachable s → StateInv s) :=
  ⟨by decide, inv_inputMonitor, inv_tick, inv_reachable⟩

theorem display_state_invariant_witness :
    StateInv (inputMonitor true ⟨255, false, 0⟩) ∧ StateInv (tick ⟨63, true, 0⟩) :=
  ⟨display_state_invariant.2.1 true ⟨255, false, 0⟩ display_state_invariant.1,
   display_state_invariant.2.2.1 ⟨63, true, 0⟩ (by decide)⟩

/-- The 4-byte LED row buffer `uint8_t leds[4]` of `main.c`:
`{row byte, RED byte, GREEN byte, BLUE byte}`. -/
structure Frame where
  row : Nat
  red : Nat
  green : Nat
  blue : Nat
deriving DecidableEq

/-- The C bitwise complement of a byte value: `(uint8_t)~x = 255 - x % 256`. -/
def comp8 (x : Nat) : Nat := 255 - x % 256

/-- One electrical operation on the three shift-register lines of `PORTC`. -/
inductive LineOp where
  | dataBit (b : Bool)
  | clockHigh
  | clockLow
  | latchHigh
  | latchLow
deriving DecidableEq

/-- `shift_out` from `main.c` lines 137-172, as the sequence of line
operations it performs: latch low, clock low, then for each byte `bytes[j]`
(`j < size_in_bytes`) and each bit `i = 0..7` (LSB first) a data write
followed by a clock pulse high then low, and finally latch high. -/
def shift_out (bytes : List Nat) : List LineOp :=
  ([LineOp.latchLow, LineOp.clockLow]
    ++ (List.range bytes.length).flatMap (fun j =>
         (List.range 8).flatMap (fun i =>
           [LineOp.dataBit (Nat.testBit (bytes.getD j 0) i),
            LineOp.clockHigh, LineOp.clockLow])))
  ++ [LineOp.latchHigh]

/-- `show_leds` from `main.c` lines 175-187: complements bytes 1..3 of the
caller's buffer in place, then shifts out all 4 bytes.  Returns the mutated
buffer together with the emitted line operations. -/
def show_leds (f : Frame) : Frame × List LineOp :=
  let f' : Frame := { row := f.row, red := comp8 f.red,
                      green := comp8 f.green, blue := comp8 f.blue }
  (f', shift_out [f'.row, f'.red, f'.green, f'.blue])

/-- The transmission trace exactly as claim C5 words it (stated for
comparison with `show_leds`): latch low; then the 4 bytes in order row,
red, green, blue — the color bytes inverted, the row byte not — each bit
LSB to MSB as a data write plus a clock pulse; then latch high.  It omits
the initial clock-low write that the code performs. -/
def claimedTransmit (f : Frame) : List LineOp :=
  (LineOp.latchLow
    :: [f.row, comp8 f.red, comp8 f.green, comp8 f.blue].flatMap (fun b =>
         (List.range 8).flatMap (fun i =>
           [LineOp.dataBit (Nat.testBit b i), LineOp.clockHigh, LineOp.clockLow])))
  ++ [LineOp.latchHigh]

/-- The claim C5 trace amended with the clock-low write that the code emits
right after driving latch low. -/
def transmitAmended (f : Frame) : List LineOp :=
  (LineOp.latchLow :: LineOp.clockLow
    :: [f.row, comp8 f.red, comp8 f.green, comp8 f.blue].flatMap (fun b =>
         (List.range 8).flatMap (fun i =>
           [LineOp.dataBit (Nat.testBit b i), LineOp.clockHigh, LineOp.clockLow])))
  ++ [LineOp.latchHigh]

/-- `static uint8_t red_left[]` from `main.c` line 207. -/
def red_left : List Nat := [0x1, 0x3, 0x7, 0xf, 0x8, 0xc, 0xe, 0xf]

/-- `static uint8_t red_right[]` from `main.c` line 208. -/
def red_right : List Nat := [0x8, 0xc, 0xe, 0xf, 0x1, 0x3, 0x7, 0xf]

/-- `actual_row` computed at `main.c` lines 239-241: `state / 4`, folded
back by 8 when above 7. -/
def actualRow (st : Nat) : Nat :=
  if st / 4 > 7 then st / 4 - 8 else st / 4

/-- `last_red` computed at `main.c` line 244: `state % 8`. -/
def lastRed (st : Nat) : Nat := st % 8

/-- `leds[0]` for scanned row `j`, from `main.c` lines 251-254: the read of
`state` there is passed in as `stRead`. -/
def rowByte (stRead j : Nat) : Nat :=
  if stRead < 32 then 1 <<< (7 - j) else 1 <<< j

/-- `leds[1]` for scanned row `j`, from `main.c` lines 258-272: `stRead` is
the read of `state` at line 258, `ar`/`lr` the previously computed
`actual_row`/`last_red`. -/
def redByte (stRead ar lr j : Nat) : Nat :=
  if stRead < 32 then
    if j = ar then (red_left.getD lr 0) <<< 4
    else if j < ar then (red_left.getD 3 0) <<< 4
    else 0x00
  else
    if j = ar then (red_right.getD lr 0) ||| 0xf0
    else if j < ar then (red_right.getD 3 0) ||| 0xf0
    else 0xf0

/-- The frame built for scanned row `j` in the running branch of the main
loop (`main.c` lines 247-281), for a single coherent value `st` of `state`:
`leds[2] = ~leds[1]`, `leds[3] = 0`. -/
def runningRowFrame (st j : Nat) : Frame :=
  { row := rowByte st j,
    red := redByte st (actualRow st) (lastRed st) j,
    green := comp8 (redByte st (actualRow st) (lastRed st) j),
    blue := 0x00 }

/-- The 8 frames of one full running-mode pass (`for j = 0..7`). -/
def runningFrames (st : Nat) : List Frame :=
  (List.range 8).map (runningRowFrame st)

/-- One iteration of the `while (1)` loop of `main` (`main.c` lines
210-283), under a single coherent value `st` of `state`: the list of frames
passed to `show_leds`, each paired with the `_delay_ms` duration performed
after it (0 where the code has no delay call). -/
def mainIteration (st : Nat) : List (Frame × Nat) :=
  if st = 255 then
    [(⟨0xff, 0x00, 0x00, 0xff⟩, 0)]
  else if st > 63 then
    [(⟨0xff, 0xff, 0x00, 0x00⟩, 500), (⟨0x00, 0x00, 0x00, 0x00⟩, 500)]
  else
    (runningFrames st).map (fun f => (f, 0))

/-- One iteration of the `while (1)` loop with every volatile read of
`state` made explicit: `reads k` is the value returned by the `k`-th read
of `state` in source order (0: line 213, 1: line 221, 2: line 239,
3: line 244, then for each scanned row `j` the reads at line 251 and
line 258 are reads `4 + 2*j` and `5 + 2*j`). -/
def mainPassR (reads : Nat → Nat) : List (Frame × Nat) :=
  if reads 0 = 255 then
    [(⟨0xff, 0x00, 0x00, 0xff⟩, 0)]
  else if reads 1 > 63 then
    [(⟨0xff, 0xff, 0x00, 0x00⟩, 500), (⟨0x00, 0x00, 0x00, 0x00⟩, 500)]
  else
    (List.range 8).map (fun j =>
      ({ row := rowByte (reads (4 + 2 * j)) j,
         red := redByte (reads (5 + 2 * j)) (actualRow (reads 2)) (lastRed (reads 3)) j,
         green := comp8 (redByte (reads (5 + 2 * j)) (actualRow (reads 2)) (lastRed (reads 3)) j),
         blue := 0x00 }, 0))

/-- The infinite frame sequence emitted while `state` holds the fixed value
`st`: the main loop repeats `mainIteration st` forever, so the `n`-th
emitted (frame, dwell) pair is the `n mod length`-th of the pass. -/
def emittedStream (st n : Nat) : Frame × Nat :=
  (mainIteration st).getD (n % (mainIteration st).length) (⟨0, 0, 0, 0⟩, 0)

theorem running_scan_all : ∀ st, st < 64 →
    (mainIteration st).length = 8 ∧
    ((mainIteration st).map (fun e => e.1.row)).Nodup ∧
    (∀ e ∈ mainIteration st, ∃ k, k < 8 ∧ e.1.row = 1 <<< k) ∧
    (∀ k, k < 8 → (1 <<< k) ∈ (mainIteration st).map (fun e => e.1.row)) := by decide

/-- Claim C4: for every `counter` in `0..63` one running-mode pass produces
exactly 8 frames whose row-select masks are single-bit, pairwise distinct,
and together cover all 8 bit positions. -/
theorem running_scan_spec (st : Nat) (h : st < 64) :
    (mainIteration st).length = 8 ∧
    ((mainIteration st).map (fun e => e.1.row)).Nodup ∧
    (∀ e ∈ mainIteration st, ∃ k, k < 8 ∧ e.1.row = 1 <<< k) ∧
    (∀ k, k < 8 → (1 <<< k) ∈ (mainIteration st).map (fun e => e.1.row)) :=
  running_scan_all st h

theorem running_scan_spec_witness :
    (mainIteration 0).length = 8 ∧ ((mainIteration 0).map (fun e => e.1.row)).Nodup :=
  ⟨(running_scan_spec 0 (by decide)).1, (running_scan_spec 0 (by decide)).2.1⟩

/-- Claim C5 (counterexample): at the frame `(0x80, 0x10, 0xEF, 0x00)` the
trace emitted by `show_leds` is not the one the claim enumerates, because
the code drives the clock line low right after driving the latch low. -/
theorem transmit_cex :
    (show_leds ⟨0x80, 0x10, 0xEF, 0x00⟩).2 ≠ claimedTransmit ⟨0x80, 0x10, 0xEF, 0x00⟩ := by
  decide

/-- Claim C5 (amended): for every frame, `show_leds` emits exactly: latch
low, clock low, then each of row, inverted red, inverted green, inverted
blue bit by bit (LSB first, each bit followed by a clock pulse high then
low), then latch high. -/
theorem transmit_amended_spec : ∀ f : Frame, (show_leds f).2 = transmitAmended f :=
  fun _ => rfl

/-- Claim C6 (counterexample): the pattern tables are not monotone over the
whole sub-index range: `red_left[3] = 0xf` has bit 0 set while
`red_left[4] = 0x8` does not. -/
theorem pattern_tables_cex :
    red_left.getD 3 0 = 0xf ∧ red_left.getD 4 0 = 0x8 ∧
    Nat.testBit (red_left.getD 3 0) 0 = true ∧
    Nat.testBit (red_left.getD 4 0) 0 = false ∧
    ¬ (∀ i, i < 7 → ∀ b, b < 8 →
        Nat.testBit (red_left.getD i 0) b = true →
        Nat.testBit (red_left.getD (i + 1) 0) b = true) := by decide

/-- Claim C6 (amended): within each half of either table (sub-indices 0..3
and 4..7, i.e. skipping the step from index 3 to 4) every bit set at
sub-index `i` is also set at sub-index `i+1`. -/
theorem pattern_tables_half_monotone (tbl : List Nat)
    (htbl : tbl = red_left ∨ tbl = red_right) (i : Nat) (hi : i < 7)
    (b : Nat) (hb : b < 8) (hne : i ≠ 3)
    (h : Nat.testBit (tbl.getD i 0) b = true) :
    Nat.testBit (tbl.getD (i + 1) 0) b = true := by
  rcases htbl with h' | h' <;> subst h' <;> revert i hi b hb hne h <;> decide

theorem pattern_tables_half_monotone_witness :
    Nat.testBit (red_left.getD 6 0) 2 = true :=
  pattern_tables_half_monotone red_left (Or.inl rfl) 5 (by decide) 2 (by decide)
    (by decide) (by decide)

/-- Claim C7: at `counter = 0` the pass's frame for row index 0 is
`(rowMask 0x80, red 0x10 = growFromRight[0] in the high nibble,
green 0xEF, blue 0x00)`, and the frame for row index 1 has red `0x00`
and green `0xFF`. -/
theorem scenario_b_c :
    (mainIteration 0).getD 0 (⟨0, 0, 0, 0⟩, 0) = (⟨0x80, 0x10, 0xEF, 0x00⟩, 0) ∧
    ((mainIteration 0).getD 1 (⟨0, 0, 0, 0⟩, 0)).1.red = 0x00 ∧
    ((mainIteration 0).getD 1 (⟨0, 0, 0, 0⟩, 0)).1.green = 0xff := by decide

/-- Claim C8 (counterexample): `counter = 255` satisfies `counter > 63`,
yet there the pass is the single solid-blue idle frame, repeated without
alternation — the claim must exclude the idle sentinel 255. -/
theorem overtime_cex :
    63 < 255 ∧
    mainIteration 255 ≠ [(⟨0xff, 0xff, 0x00, 0x00⟩, 500), (⟨0x00, 0x00, 0x00, 0x00⟩, 500)] ∧
    emittedStream 255 1 = emittedStream 255 0 := by decide

/-- Claim C8 (amended): whenever `63 < counter` and `counter ≠ 255`, the
pass is exactly the solid-red frame then the blank frame, each with a
500 ms dwell, and the sustained emitted sequence takes no other value and
never repeats a phase twice in a row. -/
theorem overtime_spec (st : Nat) (h1 : 63 < st) (h2 : st ≠ 255) :
    mainIteration st = [(⟨0xff, 0xff, 0x00, 0x00⟩, 500), (⟨0x00, 0x00, 0x00, 0x00⟩, 500)] ∧
    (∀ n, emittedStream st n = (⟨0xff, 0xff, 0x00, 0x00⟩, 500) ∨
          emittedStream st n = (⟨0x00, 0x00, 0x00, 0x00⟩, 500)) ∧
    (∀ n, emittedStream st (n + 1) ≠ emittedStream st n) := by
  have hpass : mainIteration st
      = [(⟨0xff, 0xff, 0x00, 0x00⟩, 500), (⟨0x00, 0x00, 0x00, 0x00⟩, 500)] := by
    unfold mainIteration
    rw [if_neg h2, if_pos h1]
  refine ⟨hpass, fun n => ?_, fun n => ?_⟩
  · unfold emittedStream
    rw [hpass]
    rcases Nat.mod_two_eq_zero_or_one n with h | h <;> simp [h]
  · unfold emittedStream
    rw [hpass]
    rcases Nat.mod_two_eq_zero_or_one n with h | h
    · have h' : (n + 1) % 2 = 1 := by omega
      simp [h, h']
    · have h' : (n + 1) % 2 = 0 := by omega
      simp [h, h']

theorem overtime_spec_witness :
    mainIteration 64 = [(⟨0xff, 0xff, 0x00, 0x00⟩, 500), (⟨0x00, 0x00, 0x00, 0x00⟩, 500)] ∧
    emittedStream 64 1 ≠ emittedStream 64 0 :=
  ⟨(overtime_spec 64 (by decide) (by decide)).1,
   (overtime_spec 64 (by decide) (by decide)).2.2 0⟩

set_option maxRecDepth 4096 in
/-- Claim C9 (counterexample): the loop does not act on a single snapshot:
under the read sequence that returns 0 for the first six volatile reads of
`state` and 255 afterwards (a button press landing between row 0 and row 1
of a running pass), the produced pass differs from every single-snapshot
pass `mainIteration st`, `st ≤ 255`. -/
theorem main_pass_cex :
    ¬ ∃ st, st ≤ 255 ∧
      mainPassR (fun n => if n ≤ 5 then 0 else 255) = mainIteration st := by decide

/-- Claim C9 (amended): the loop re-reads `state` at every decision point,
but when all reads of a pass return the same value (no handler write lands
mid-pass) the pass equals the single-snapshot rendering. -/
theorem main_pass_snapshot : ∀ st : Nat, mainPassR (fun _ => st) = mainIteration st :=
  fun _ => rfl

/-- Claim C10: `show_leds` mutates the caller's buffer in place — byte 0
is unchanged and bytes 1..3 are complemented — so a second call on the
untouched buffer un-inverts the colors and shifts out the original logical
color bytes. -/
theorem show_leds_inplace (f : Frame) (h1 : f.red < 256) (h2 : f.green < 256)
    (h3 : f.blue < 256) :
    (show_leds f).1.row = f.row ∧
    (show_leds f).1.red = comp8 f.red ∧
    (show_leds f).1.green = comp8 f.green ∧
    (show_leds f).1.blue = comp8 f.blue ∧
    (show_leds (show_leds f).1).1 = f ∧
    (show_leds (show_leds f).1).2 = shift_out [f.row, f.red, f.green, f.blue] := by
  obtain ⟨r, rd, g, b⟩ := f
  simp only at h1 h2 h3
  have e1 : comp8 (comp8 rd) = rd := by simp only [comp8]; omega
  have e2 : comp8 (comp8 g) = g := by simp only [comp8]; omega
  have e3 : comp8 (comp8 b) = b := by simp only [comp8]; omega
  refine ⟨rfl, rfl, rfl, rfl, ?_, ?_⟩
  · show (⟨r, comp8 (comp8 rd), comp8 (comp8 g), comp8 (comp8 b)⟩ : Frame) = ⟨r, rd, g, b⟩
    rw [e1, e2, e3]
  · show shift_out [r, comp8 (comp8 rd), comp8 (comp8 g), comp8 (comp8 b)]
        = shift_out [r, rd, g, b]
    rw [e1, e2, e3]

theorem show_leds_inplace_witness :
    (show_leds (show_leds ⟨0x80, 0x10, 0xEF, 0x00⟩).1).1 = ⟨0x80, 0x10, 0xEF, 0x00⟩ :=
  (show_leds_inplace ⟨0x80, 0x10, 0xEF, 0x00⟩ (by decide) (by decide) (by decide)).2.2.2.2.1
